import Mathlib

/-!
Verification of the MaxScale CDC connector (cdc_connector.cpp / cdc_connector.h).

The development shallowly embeds the connector's protocol logic:

* JSON values (`Jv`) model the tagged value trees produced by the external
  JSON parser (jansson), which the spec treats as an external capability.
  A JSON real number is represented by the text the stream formatter
  produces for it, since floating-point formatting is external to the
  embedding.
* `readRow` models `Connection::readRow`, the byte-at-a-time line decoder,
  over an explicit list of available input bytes; stream exhaustion models
  the timeout case (`nointr_read` returning 0).
* `is_schema`, `processSchema`, `processRow` and `readStep`
  (`Connection::read`) model the schema-vs-row dispatch.  `readStep` takes
  a fuel argument bounding the recursion depth of `read`'s self-call on
  schema lines; `input.length + 1` fuel always suffices because each line
  consumes at least one byte.
* `bin2hex`, `SHA1` and `generateAuthString` model the authentication
  token computation; `SHA1` is a full executable SHA-1 over byte lists
  (naturals below 256), with machine words as naturals reduced mod 2^32.
-/

namespace CDC

/-- JSON values as produced by the external parser (jansson).  `real s`
carries the textual numeric form the stream formatter yields for the
number, because floating-point formatting is outside the embedding. -/
inductive Jv where
  | str (s : String)
  | int (n : Int)
  | real (s : String)
  | bool (b : Bool)
  | null
  | arr (xs : List Jv)
  | obj (fields : List (String × Jv))

/-- `json_object_get`: key lookup on an object; `none` on a non-object or
a missing key. -/
def objGet : Jv → String → Option Jv
  | .obj fs, k => (fs.find? (fun p => p.1 = k)).map Prod.snd
  | _, _ => none

/-- `json_is_string`. -/
def json_is_string : Jv → Bool
  | .str _ => true
  | _ => false

/-- `json_string_value`: the string payload; `none` (NULL) on a non-string. -/
def json_string_value : Jv → Option String
  | .str s => some s
  | _ => none

/-- `json_is_array`. -/
def json_is_array : Jv → Bool
  | .arr _ => true
  | _ => false

/-- `json_array_size`: 0 on a non-array. -/
def json_array_size : Jv → Nat
  | .arr xs => xs.length
  | _ => 0

/-- `json_array_get`: `none` when out of range or not an array. -/
def json_array_get : Jv → Nat → Option Jv
  | .arr xs, i => xs.get? i
  | _, _ => none

/-- `json_to_string` (cdc_connector.cpp): convert one JSON value to the
string stored in a Row.  Strings pass through, integers and reals print
their textual numeric form, booleans print `true`/`false`, null and the
aggregate kinds produce the empty string. -/
def json_to_string : Jv → String
  | .str s => s
  | .int n => toString n
  | .real s => s
  | .bool true => "true"
  | .bool false => "false"
  | .null => ""
  | .arr _ => ""
  | .obj _ => ""

/-- `is_schema` (cdc_connector.cpp): the object has a `"fields"` member
that is a non-empty array whose first element has a `"name"` member. -/
def is_schema (json : Jv) : Bool :=
  match objGet json "fields" with
  | some j =>
      if json_is_array j && json_array_size j != 0 then
        match json_array_get j 0 with
        | some first => (objGet first "name").isSome
        | none => false
      else false
  | none => false

/-- The spec's classification, written from its words: "a message is
classified as a schema announcement iff it has a `\"fields\"` key holding
a non-empty array whose first element has a `\"name\"` key". -/
def specSchemaShaped (json : Jv) : Bool :=
  match objGet json "fields" with
  | some (.arr (first :: _)) => (objGet first "name").isSome
  | _ => false

/-- One field entry of a schema announcement, as read by
`Connection::processSchema`: the name from `"name"` (empty when absent;
jansson returns NULL for a non-string value, which the C++ would feed to
`std::string` — behaviour undefined there, modelled as the empty string),
the type from `"real_type"`, falling back to `"type"`, with `"char(50)"`
for a present non-string type and `"undefined"` when neither key exists. -/
def schemaField (v : Jv) : String × String :=
  let name := objGet v "name"
  let type :=
    match objGet v "real_type" with
    | some t => some t
    | none => objGet v "type"
  let nameval :=
    match name with
    | some n => (json_string_value n).getD ""
    | none => ""
  let typeval :=
    match type with
    | some t => if json_is_string t then (json_string_value t).getD "" else "char(50)"
    | none => "undefined"
  (nameval, typeval)

/-- `Connection::processSchema`: clear the registry and refill it from the
`"fields"` array (the `json_array_foreach` loop iterates zero times on a
missing or non-array value, leaving the cleared lists empty). -/
def processSchema (json : Jv) : List String × List String :=
  match objGet json "fields" with
  | some (.arr fs) => ((fs.map schemaField).map Prod.fst, (fs.map schemaField).map Prod.snd)
  | _ => ([], [])

/-- Internal representation of a row: private copies of the registry's
names and types plus the decoded values (cdc_connector.h). -/
structure InternalRow where
  m_keys : List String
  m_types : List String
  m_values : List String
deriving DecidableEq, Repr

/-- The index `std::find(m_keys.begin(), m_keys.end(), str) - m_keys.begin()`
used by `InternalRow::value(const std::string&)`: the first occurrence of
the name, or `m_keys.length` when the name is absent. -/
def InternalRow.valueIdx (r : InternalRow) (s : String) : Nat :=
  r.m_keys.indexOf s

/-- `InternalRow::value(const std::string&)`: index `m_values` at
`valueIdx`; `none` models the out-of-bounds vector access the C++ performs
when the name is absent. -/
def InternalRow.value (r : InternalRow) (s : String) : Option String :=
  r.m_values.get? (r.valueIdx s)

/-- `InternalRow::gtid`: `domain-server_id-sequence` built from three
lookups by name; `none` when any of the three lookups is out of bounds. -/
def InternalRow.gtid (r : InternalRow) : Option String :=
  match r.value "domain", r.value "server_id", r.value "sequence" with
  | some d, some s, some q => some (d ++ "-" ++ s ++ "-" ++ q)
  | _, _, _ => none

/-- The value-collection loop of `Connection::processRow`: walk the
registry's names in order, look each up in the object, convert with
`json_to_string`, and stop with the error message at the first missing
name. -/
def collectValues (js : Jv) : List String → Except String (List String)
  | [] => .ok []
  | k :: ks =>
      match objGet js k with
      | some v => (collectValues js ks).map (fun vs => json_to_string v :: vs)
      | none => .error ("No value for key found: " ++ k)

/-- `Connection::processRow`: a Row holding copies of the registry's names
and types plus the collected values, or no Row and the recorded error. -/
def processRow (keys types : List String) (js : Jv) : Option InternalRow × String :=
  match collectValues js keys with
  | .ok vs => (some ⟨keys, types, vs⟩, "")
  | .error e => (none, e)

/-- `std::string::operator[]` as used by `readRow`'s error check: the
character at `i`, or the null character.  C++ defines the read at
`i = size()` to yield the null character; the read at `i = size() + 1`
(reached only as `dest[2]` on a one-byte accumulator, where `dest[1]`
is already the null character and the conjunction is false regardless)
is modelled the same way, which does not affect the check's outcome. -/
def strAt (s : String) (i : Nat) : Char :=
  s.data.getD i (Char.ofNat 0)

/-- The accumulated-prefix test
`dest[0] == 'E' && dest[1] == 'R' & dest[2] == 'R'` of
`Connection::readRow`.  C++ precedence groups it as
`dest[0]=='E' && ((dest[1]=='R') & (dest[2]=='R'))`; on the 0/1 values of
the comparisons, bitwise `&` agrees with logical conjunction. -/
def errPrefixCheck (dest : String) : Bool :=
  strAt dest 0 = 'E' && (strAt dest 1 = 'R' && strAt dest 2 = 'R')

/-- Result of one `Connection::readRow` call over the modelled byte
stream: either a complete line (terminator discarded) or a failure with
the recorded error message, together with the bytes left unread. -/
inductive RRes where
  | ok (line : String) (rest : List Char)
  | fail (emsg : String) (rest : List Char)
deriving DecidableEq, Repr

/-- `Connection::readRow`: pull one byte at a time, appending to the
accumulator, until the line terminator; stream exhaustion models
`nointr_read` returning 0, which records "Request timed out"; after each
appended byte the `"ERR"` prefix check runs and, when it fires, records
the error and breaks out of the loop immediately. -/
def readRow : List Char → String → RRes
  | [], _ => .fail "Request timed out" []
  | c :: rest, dest =>
      if c = '\n' then .ok dest rest
      else
        let dest2 := dest.push c
        if errPrefixCheck dest2 then
          .fail ("Server responded with an error: " ++ dest2) rest
        else readRow rest dest2

/-- The Connection state touched by the `read` path: the schema registry
(`m_keys`, `m_types`), the raw schema text and the last error message. -/
structure ConnState where
  m_keys : List String
  m_types : List String
  m_schema : String
  m_error : String
deriving DecidableEq, Repr

/-- The state update of `Connection::read`'s schema branch: store the raw
line as the schema text and let `processSchema` replace the registry. -/
def applySchema (st : ConnState) (line : String) (js : Jv) : ConnState :=
  { st with
    m_schema := line
    m_keys := (processSchema js).1
    m_types := (processSchema js).2 }

/-- `Connection::read`, parameterised by the external JSON parser
(`parse line` is `json_loads`' outcome on the line: a value tree or the
diagnostic text of `json_error_t`).  The fuel argument bounds the depth
of the recursive self-call taken on schema lines; since every line
consumes at least one input byte, `input.length + 1` fuel always
suffices, and the fuel-exhaustion branch is unreachable then. -/
def readStep (parse : String → Except String Jv) :
    Nat → ConnState → List Char → Option InternalRow × ConnState × List Char
  | 0, st, input => (none, st, input)
  | fuel + 1, st, input =>
      match readRow input "" with
      | .fail e rest => (none, { st with m_error := e }, rest)
      | .ok line rest =>
          match parse line with
          | .error e => (none, { st with m_error := "Failed to parse JSON: " ++ e }, rest)
          | .ok js =>
              if is_schema js then
                readStep parse fuel (applySchema st line js) rest
              else
                let pr := processRow st.m_keys st.m_types js
                (pr.1, { st with m_error := pr.2 }, rest)

/-! ### Authentication token (generateAuthString / bin2hex / SHA1) -/

/-- `k` big-endian bytes of `n`. -/
def bytesBE (k : Nat) (n : Nat) : List Nat :=
  (List.range k).map (fun i => (n >>> (8 * (k - 1 - i))) % 256)

/-- Rotate a 32-bit word (a natural below `2^32`) left by `n` bits. -/
def rotl (n x : Nat) : Nat :=
  ((x <<< n) ||| (x >>> (32 - n))) % 4294967296

/-- SHA-1 padding: a `0x80` byte, zeros to 56 mod 64, then the 64-bit
big-endian bit length. -/
def sha1pad (msg : List Nat) : List Nat :=
  let l := msg.length
  let zeros := (119 - l % 64) % 64
  msg ++ 128 :: (List.replicate zeros 0 ++ bytesBE 8 (8 * l))

/-- The 16 big-endian 32-bit words of one 64-byte chunk. -/
def toWords (chunk : List Nat) : List Nat :=
  (List.range 16).map (fun i =>
    chunk.getD (4 * i) 0 * 16777216 + chunk.getD (4 * i + 1) 0 * 65536 +
      chunk.getD (4 * i + 2) 0 * 256 + chunk.getD (4 * i + 3) 0)

/-- Extend 16 words to the 80-word message schedule. -/
def extendWords (ws : List Nat) : List Nat :=
  (List.range 64).foldl
    (fun ws _ =>
      let n := ws.length
      ws ++ [rotl 1 ((((ws.getD (n - 3) 0) ^^^ (ws.getD (n - 8) 0)) ^^^
        (ws.getD (n - 14) 0)) ^^^ (ws.getD (n - 16) 0))])
    ws

/-- The SHA-1 round function for round `t` (complement taken mod `2^32`). -/
def sha1F (t b c d : Nat) : Nat :=
  if t < 20 then (b &&& c) ||| ((4294967295 ^^^ b) &&& d)
  else if t < 40 then (b ^^^ c) ^^^ d
  else if t < 60 then ((b &&& c) ||| (b &&& d)) ||| (c &&& d)
  else (b ^^^ c) ^^^ d

/-- The SHA-1 round constant for round `t`. -/
def sha1K (t : Nat) : Nat :=
  if t < 20 then 1518500249
  else if t < 40 then 1859775393
  else if t < 60 then 2400959708
  else 3395469782

/-- The five 32-bit working registers of SHA-1. -/
structure Sha1State where
  a : Nat
  b : Nat
  c : Nat
  d : Nat
  e : Nat
deriving DecidableEq, Repr

/-- The SHA-1 initial state. -/
def sha1Init : Sha1State :=
  ⟨1732584193, 4023233417, 2562383102, 271733878, 3285377520⟩

/-- The 80 SHA-1 rounds over one message schedule. -/
def sha1Rounds (ws : List Nat) (s : Sha1State) : Sha1State :=
  (List.range 80).foldl
    (fun s t =>
      let temp :=
        (rotl 5 s.a + sha1F t s.b s.c s.d + s.e + sha1K t + ws.getD t 0) % 4294967296
      ⟨temp, s.a, rotl 30 s.b, s.c, s.d⟩)
    s

/-- Process one 64-byte chunk and add the result into the running state. -/
def processChunk (s : Sha1State) (chunk : List Nat) : Sha1State :=
  let t := sha1Rounds (extendWords (toWords chunk)) s
  ⟨(s.a + t.a) % 4294967296, (s.b + t.b) % 4294967296, (s.c + t.c) % 4294967296,
    (s.d + t.d) % 4294967296, (s.e + t.e) % 4294967296⟩

/-- The 64-byte chunks of a padded message. -/
def chunks64 (l : List Nat) : List (List Nat) :=
  (List.range (l.length / 64)).map (fun i => (l.drop (64 * i)).take 64)

/-- The external digest primitive used by `generateAuthString`
(`SHA1` from OpenSSL): the 20-byte SHA-1 digest of a byte sequence,
implemented executably over naturals below 256. -/
def SHA1 (msg : List Nat) : List Nat :=
  let s := (chunks64 (sha1pad msg)).foldl processChunk sha1Init
  bytesBE 4 s.a ++ (bytesBE 4 s.b ++ (bytesBE 4 s.c ++ (bytesBE 4 s.d ++ bytesBE 4 s.e)))

/-- The UTF-8 encoding of one character, as the bytes a C++ `std::string`
literal of that text holds. -/
def utf8Bytes (c : Char) : List Nat :=
  if c.toNat < 128 then [c.toNat]
  else if c.toNat < 2048 then [192 + c.toNat / 64, 128 + c.toNat % 64]
  else if c.toNat < 65536 then
    [224 + c.toNat / 4096, 128 + c.toNat / 64 % 64, 128 + c.toNat % 64]
  else
    [240 + c.toNat / 262144, 128 + c.toNat / 4096 % 64, 128 + c.toNat / 64 % 64,
      128 + c.toNat % 64]

/-- The raw bytes of a string (`c_str()` / `length()` view). -/
def strBytes (s : String) : List Nat :=
  (s.data.map utf8Bytes).flatten

/-- The conversion table of `bin2hex`. -/
def hexconvtab : List Char := "0123456789abcdef".data

/-- `bin2hex`: two lower-case hex digits per byte, high nibble
(`data[i] >> 4`) first, low nibble (`data[i] & 0x0f`) second. -/
def bin2hex (data : List Nat) : String :=
  ⟨(data.map (fun b =>
      [hexconvtab.getD (b / 16) (Char.ofNat 0), hexconvtab.getD (b % 16) (Char.ofNat 0)])).flatten⟩

/-- `generateAuthString`: hex of the bytes of `user + ":"` followed by hex
of the SHA-1 digest of the raw password bytes. -/
def generateAuthString (user password : String) : String :=
  let digest := SHA1 (strBytes password)
  let auth_str := user ++ ":"
  let part1 := bin2hex (strBytes auth_str)
  let part2 := bin2hex digest
  part1 ++ part2

/-! ### Connection teardown (closeConnection) and socket bootstrap -/

/-- The observable I/O a teardown performs. -/
inductive IOAct where
  | writeMsg (msg : String)
  | closeFd (fd : Int)
deriving DecidableEq, Repr

/-- The close-notification line (`CLOSE_MSG`). -/
def CLOSE_MSG : String := "CLOSE"

/-- `Connection::closeConnection`: only when the stored descriptor is not
`-1`, best-effort write the close notification, release the descriptor
and reset the field to `-1`.  Returns the new descriptor field and the
I/O performed. -/
def closeConnection (m_fd : Int) : Int × List IOAct :=
  if m_fd != -1 then (-1, [.writeMsg CLOSE_MSG, .closeFd m_fd]) else (m_fd, [])

/-- Outcomes of the external socket primitives used by
`Connection::createConnection`, supplied as an oracle: the address check
(`inet_aton`), the `socket()` return value, and the success of
`connect`, the `fcntl` pair, `doAuth` and `doRegistration`. -/
structure NetOracle where
  addrOk : Bool
  socketFd : Int
  connectOk : Bool
  fcntlOk : Bool
  authOk : Bool
  regOk : Bool
deriving DecidableEq, Repr

/-- The control flow of `Connection::createConnection` over the oracle:
its boolean result and the `m_fd` field it leaves behind.  The source
assigns `m_fd = fd;` unconditionally once the address parsed, before the
`connect` result is examined, so a failed connect attempt leaves the
socket descriptor stored in `m_fd`. -/
def createConnection (m_fd : Int) (o : NetOracle) : Bool × Int :=
  if !o.addrOk then (false, m_fd)
  else
    let m_fd := o.socketFd
    if !o.connectOk then (false, m_fd)
    else if !o.fcntlOk then (false, m_fd)
    else (o.authOk && o.regOk, m_fd)

/-! ### The spec's worked two-line example -/

/-- The four-field schema-announcement line of the spec's worked example. -/
def schemaLine : String :=
  "\x7b\"fields\":[\x7b\"name\":\"domain\",\"real_type\":\"int\"\x7d,\x7b\"name\":\"server_id\",\"real_type\":\"int\"\x7d,\x7b\"name\":\"sequence\",\"real_type\":\"int\"\x7d,\x7b\"name\":\"col1\",\"real_type\":\"varchar(10)\"\x7d]\x7d"

/-- The data-event line of the spec's worked example. -/
def dataLine : String :=
  "\x7b\"domain\":0,\"server_id\":1,\"sequence\":5,\"col1\":\"hello\"\x7d"

/-- The value tree the external parser yields for `schemaLine`. -/
def schemaJv : Jv :=
  .obj [("fields", .arr
    [ .obj [("name", .str "domain"), ("real_type", .str "int")],
      .obj [("name", .str "server_id"), ("real_type", .str "int")],
      .obj [("name", .str "sequence"), ("real_type", .str "int")],
      .obj [("name", .str "col1"), ("real_type", .str "varchar(10)")] ])]

/-- The value tree the external parser yields for `dataLine`. -/
def dataJv : Jv :=
  .obj [("domain", .int 0), ("server_id", .int 1), ("sequence", .int 5),
    ("col1", .str "hello")]

/-- The external JSON parser's behaviour on the example's two lines. -/
def exParse (s : String) : Except String Jv :=
  if s = schemaLine then .ok schemaJv
  else if s = dataLine then .ok dataJv
  else .error "invalid token"

/-- The example's byte stream: the two lines, each newline-terminated. -/
def exInput : List Char := (schemaLine ++ "\n" ++ dataLine ++ "\n").data

/-- A freshly constructed Connection's read-path state: empty registry,
no schema text, no error. -/
def initState : ConnState := ⟨[], [], "", ""⟩

/-! ### Spec-side definitions for the schema-field refinement -/

/-- Modelled from the spec's words: "the field name is taken from
`"name"` (empty string if absent)".  The spec gives no meaning to a
present non-string `"name"` value (there the C++ feeds jansson's NULL to
`std::string`); the claim's theorem assumes present names are strings,
and this total extension maps the unspecified branch to the empty
string. -/
def specName (v : Jv) : String :=
  ((objGet v "name").bind json_string_value).getD ""

/-- Modelled from the spec's words: "the field type is taken from
`"real_type"` if present, else from `"type"` if that value is itself a
plain string, else the literal fallback `"char(50)"` if `"type"` exists
but is not a string, else the literal `"undefined"` if neither key
exists".  The `"real_type"` branch is worded for a plain-string value,
which the claim's theorem assumes. -/
def specType (v : Jv) : String :=
  match objGet v "real_type" with
  | some rt => (json_string_value rt).getD ""
  | none =>
      match objGet v "type" with
      | some t =>
          if json_is_string t then (json_string_value t).getD "" else "char(50)"
      | none => "undefined"

/-- Every present `"name"` and `"real_type"` value in the field list is a
plain JSON string (the typing under which the spec words the field
mapping; decidable, so concrete witnesses can discharge it). -/
def fieldsWellTyped (fs : List Jv) : Bool :=
  fs.all fun v =>
    (match objGet v "name" with
     | some n => json_is_string n
     | none => true) &&
    (match objGet v "real_type" with
     | some t => json_is_string t
     | none => true)

/-! ### Helper lemmas -/

/-- The code's classification agrees with the spec's shape predicate. -/
lemma is_schema_eq_specShape (j : Jv) : is_schema j = specSchemaShaped j := by
  unfold is_schema specSchemaShaped
  cases hf : objGet j "fields" with
  | none => rfl
  | some v =>
      cases v with
      | arr xs =>
          cases xs with
          | nil => simp [json_is_array, json_array_size, json_array_get]
          | cons x xs => simp [json_is_array, json_array_size, json_array_get]
      | str s => rfl
      | int n => rfl
      | real s => rfl
      | bool b => rfl
      | null => rfl
      | obj fs => rfl

/-- Unfolding `readStep` on a successfully decoded and parsed line that is
not schema-shaped: the row branch runs. -/
lemma readStep_row_branch (parse : String → Except String Jv) (fuel : Nat)
    (st : ConnState) (input : List Char) (line : String) (rest : List Char)
    (j : Jv) (h1 : readRow input "" = .ok line rest) (h2 : parse line = .ok j)
    (h3 : is_schema j = false) :
    readStep parse (fuel + 1) st input =
      ((processRow st.m_keys st.m_types j).1,
        { st with m_error := (processRow st.m_keys st.m_types j).2 }, rest) := by
  simp [readStep, h1, h2, h3]

/-- A successful value collection yields one value per registry name. -/
lemma collectValues_ok_length (js : Jv) :
    ∀ keys vs, collectValues js keys = .ok vs → vs.length = keys.length := by
  intro keys
  induction keys with
  | nil =>
      intro vs h
      simp [collectValues] at h
      simp [← h]
  | cons k ks ih =>
      intro vs h
      unfold collectValues at h
      cases hk : objGet js k with
      | none => rw [hk] at h; exact absurd h (by simp)
      | some v =>
          rw [hk] at h
          cases hc : collectValues js ks with
          | error e => rw [hc] at h; simp [Except.map] at h
          | ok vs' =>
              rw [hc] at h
              simp [Except.map] at h
              simp [← h, ih vs' hc]

/-- A Row produced by `processRow` copies the registry's names and types
and holds one value per name; the recorded error is empty. -/
lemma processRow_some (keys types : List String) (js : Jv) (r : InternalRow)
    (e : String) (h : processRow keys types js = (some r, e)) :
    r.m_keys = keys ∧ r.m_types = types ∧ r.m_values.length = keys.length ∧
      e = "" := by
  unfold processRow at h
  cases hc : collectValues js keys with
  | error e' => rw [hc] at h; simp at h
  | ok vs =>
      rw [hc] at h
      simp [Prod.ext_iff] at h
      obtain ⟨hr, he⟩ := h
      subst hr
      exact ⟨rfl, rfl, collectValues_ok_length js keys vs hc, he.symm⟩

/-- Under the well-typing of one field entry, the code's field mapping
agrees with the spec's. -/
lemma schemaField_eq_spec (v : Jv)
    (hname : ∀ n, objGet v "name" = some n → json_is_string n = true)
    (hrt : ∀ t, objGet v "real_type" = some t → json_is_string t = true) :
    schemaField v = (specName v, specType v) := by
  have hfst : (schemaField v).1 = specName v := by
    unfold schemaField specName
    cases hn : objGet v "name" with
    | none => simp
    | some n =>
        have hs := hname n hn
        cases n <;> simp_all [json_is_string, json_string_value]
  have hsnd : (schemaField v).2 = specType v := by
    unfold schemaField specType
    cases hr : objGet v "real_type" with
    | none => simp
    | some rt =>
        have hs := hrt rt hr
        cases rt <;> simp_all [json_is_string, json_string_value]
  calc schemaField v = ((schemaField v).1, (schemaField v).2) := rfl
    _ = (specName v, specType v) := by rw [hfst, hsnd]

/-- The per-element consequence of `fieldsWellTyped`. -/
lemma fieldsWellTyped_spec (fs : List Jv) (hwt : fieldsWellTyped fs = true) :
    ∀ v ∈ fs, schemaField v = (specName v, specType v) := by
  intro v hv
  have h := List.all_eq_true.mp hwt v hv
  simp only [Bool.and_eq_true] at h
  refine schemaField_eq_spec v ?_ ?_
  · intro n hn
    have h1 := h.1
    rw [hn] at h1
    exact h1
  · intro t ht
    have h2 := h.2
    rw [ht] at h2
    exact h2

/-- `collectValues` fails naming the first missing registry name whenever
some registry name is missing from the object. -/
lemma collectValues_error_of_missing (js : Jv) :
    ∀ keys : List String, (∃ k ∈ keys, objGet js k = none) →
      ∃ k, k ∈ keys ∧ objGet js k = none ∧
        collectValues js keys = .error ("No value for key found: " ++ k) := by
  intro keys
  induction keys with
  | nil => intro h; simp at h
  | cons k0 ks ih =>
      intro h
      cases hk : objGet js k0 with
      | none =>
          exact ⟨k0, List.mem_cons_self k0 ks, hk, by simp [collectValues, hk]⟩
      | some v =>
          have h' : ∃ k ∈ ks, objGet js k = none := by
            rcases h with ⟨k, hmem, hnone⟩
            rcases List.mem_cons.mp hmem with rfl | hmem'
            · rw [hk] at hnone; exact absurd hnone (by simp)
            · exact ⟨k, hmem', hnone⟩
          rcases ih h' with ⟨k, hmem, hnone, heq⟩
          refine ⟨k, List.mem_cons_of_mem _ hmem, hnone, ?_⟩
          simp [collectValues, hk, heq, Except.map]

/-- Position-wise content of a successful value collection: the value at
index `i` is `json_to_string` of the object's value for the `i`-th
registry name. -/
lemma collectValues_ok_get (js : Jv) :
    ∀ keys vs, collectValues js keys = .ok vs →
      ∀ i k, keys.get? i = some k →
        ∃ v, objGet js k = some v ∧ vs.get? i = some (json_to_string v) := by
  intro keys
  induction keys with
  | nil => intro vs _ i k hk; simp at hk
  | cons k0 ks ih =>
      intro vs h i k hk
      unfold collectValues at h
      cases ho : objGet js k0 with
      | none => rw [ho] at h; exact absurd h (by simp)
      | some v0 =>
          rw [ho] at h
          cases hc : collectValues js ks with
          | error e => rw [hc] at h; simp [Except.map] at h
          | ok vs' =>
              rw [hc] at h
              simp [Except.map] at h
              cases i with
              | zero =>
                  rw [List.get?_cons_zero] at hk
                  cases hk
                  exact ⟨v0, ho, by rw [← h, List.get?_cons_zero]⟩
              | succ i =>
                  rw [List.get?_cons_succ] at hk
                  rcases ih vs' hc i k hk with ⟨v, hv, hget⟩
                  refine ⟨v, hv, ?_⟩
                  rw [← h, List.get?_cons_succ]
                  exact hget

/-! ### Claim theorems -/

/-- C2 counterexample: on the stream line `"ERR: no such table"` line
decoding does fail, but the recorded error message is
`"Server responded with an error: ERR"` — it does not contain the
remainder `"no such table"` of the line after the prefix; the decoder
breaks off at the third byte and leaves the remainder unread. -/
theorem readRow_err_remainder_counterexample :
    readRow ("ERR: no such table\n".data) "" =
      .fail "Server responded with an error: ERR" (": no such table\n".data) ∧
    ¬ ("no such table".data <:+: "Server responded with an error: ERR".data) := by
  exact ⟨by decide, by decide⟩

/-- C2 (amended): for every stream line whose first three bytes are the
literal prefix `"ERR"`, line decoding fails as soon as those three bytes
have been read; the recorded error message is
`"Server responded with an error: ERR"` — it contains the prefix but not
the remainder of the line, which is left unread in the stream. -/
theorem readRow_err_prefix_fails (tail : List Char) :
    readRow ('E' :: 'R' :: 'R' :: tail) "" =
      .fail "Server responded with an error: ERR" tail := by
  rfl

/-- C7: schema replacement is total and non-merging — announcing A and
then B leaves the state exactly as announcing B alone would, with
exactly B's fields active — and every Row is built from copies of the
registry's names and types taken at decode time (the source's
`InternalRow` constructor copies the vectors), so a previously built Row
is a value no later `processSchema` call can alter. -/
theorem schema_replacement_total_and_rows_snapshot :
    (∀ (st : ConnState) (lineA lineB : String) (jsA jsB : Jv),
      applySchema (applySchema st lineA jsA) lineB jsB =
        applySchema st lineB jsB ∧
      (applySchema st lineB jsB).m_keys = (processSchema jsB).1 ∧
      (applySchema st lineB jsB).m_types = (processSchema jsB).2) ∧
    (∀ (keys types : List String) (js : Jv) (r : InternalRow) (e : String),
      processRow keys types js = (some r, e) →
      r.m_keys = keys ∧ r.m_types = types) := by
  constructor
  · intro st lineA lineB jsA jsB
    exact ⟨rfl, rfl, rfl⟩
  · intro keys types js r e h
    obtain ⟨h1, h2, _, _⟩ := processRow_some keys types js r e h
    exact ⟨h1, h2⟩

/-- Witness for C7: replacing the example schema by a one-field schema B
leaves exactly B's field active, and the example Row built under the
example schema carries that schema's names and types. -/
theorem schema_replacement_witness :
    (applySchema (applySchema initState schemaLine schemaJv) "B"
        (.obj [("fields", .arr [.obj [("name", .str "only"),
          ("real_type", .str "text")]])])).m_keys = ["only"] ∧
    ∀ r, (processRow ["domain", "server_id", "sequence", "col1"]
        ["int", "int", "int", "varchar(10)"] dataJv).1 = some r →
      r.m_keys = ["domain", "server_id", "sequence", "col1"] := by
  constructor
  · exact ((schema_replacement_total_and_rows_snapshot.1 initState schemaLine "B"
      schemaJv _).2.1).trans (by decide)
  · intro r hr
    exact (schema_replacement_total_and_rows_snapshot.2
      ["domain", "server_id", "sequence", "col1"]
      ["int", "int", "int", "varchar(10)"] dataJv r
      (processRow ["domain", "server_id", "sequence", "col1"]
        ["int", "int", "int", "varchar(10)"] dataJv).2
      (by rw [← hr])).1

/-- C5: a parsed JSON object is classified as a schema announcement iff it
has a `"fields"` key whose value is a non-empty array whose first element
has a `"name"` key; an object not of this shape is dispatched to row
construction by `read`. -/
theorem is_schema_iff_shape :
    (∀ j : Jv, is_schema j = true ↔ specSchemaShaped j = true) ∧
    (∀ (parse : String → Except String Jv) (fuel : Nat) (st : ConnState)
        (input : List Char) (line : String) (rest : List Char) (j : Jv),
      readRow input "" = .ok line rest → parse line = .ok j →
      specSchemaShaped j = false →
      readStep parse (fuel + 1) st input =
        ((processRow st.m_keys st.m_types j).1,
          { st with m_error := (processRow st.m_keys st.m_types j).2 }, rest)) := by
  constructor
  · intro j
    rw [is_schema_eq_specShape]
  · intro parse fuel st input line rest j h1 h2 h3
    exact readStep_row_branch parse fuel st input line rest j h1 h2
      ((is_schema_eq_specShape j).trans h3)

/-- Witness for C5: the example's data line is not schema-shaped and a
`read` on its bytes dispatches it to row construction. -/
theorem is_schema_iff_shape_witness :
    readStep exParse 1 ⟨["domain", "server_id", "sequence", "col1"],
        ["int", "int", "int", "varchar(10)"], schemaLine, ""⟩
        ((dataLine ++ "\n").data) =
      ((processRow ["domain", "server_id", "sequence", "col1"]
          ["int", "int", "int", "varchar(10)"] dataJv).1,
        ⟨["domain", "server_id", "sequence", "col1"],
          ["int", "int", "int", "varchar(10)"], schemaLine,
          (processRow ["domain", "server_id", "sequence", "col1"]
            ["int", "int", "int", "varchar(10)"] dataJv).2⟩, []) :=
  is_schema_iff_shape.2 exParse 0 _ _ dataLine [] dataJv (by decide) (by rfl)
    (by decide)

/-- C9 counterexample: after a failed connect attempt the Connection has
never successfully connected, yet its descriptor field holds the socket
(not `-1`) and `closeConnection` performs I/O (writes the close
notification and releases the descriptor). -/
theorem closeConnection_not_connected_counterexample :
    (createConnection (-1) ⟨true, 5, false, false, false, false⟩).1 = false ∧
    (createConnection (-1) ⟨true, 5, false, false, false, false⟩).2 = 5 ∧
    (closeConnection 5).2 = [.writeMsg CLOSE_MSG, .closeFd 5] ∧
    (closeConnection 5).1 = -1 := by
  decide

/-- C9 (amended): every `closeConnection` call leaves the descriptor field
at `-1`, so a second call performs no I/O and changes nothing; a call on
a Connection whose descriptor field is `-1` (fresh, or whose bootstrap
failed before a socket was stored) performs no I/O and changes nothing. -/
theorem closeConnection_idempotent (fd : Int) :
    (closeConnection fd).1 = -1 ∧
    closeConnection (closeConnection fd).1 = (-1, []) ∧
    (fd = -1 → closeConnection fd = (fd, [])) := by
  unfold closeConnection
  by_cases h : fd = -1 <;> simp [h]

/-- Witness for C9's amended theorem at descriptors 3 and `-1`. -/
theorem closeConnection_idempotent_witness :
    closeConnection (closeConnection 3).1 = (-1, []) ∧
    closeConnection (-1) = (-1, []) :=
  ⟨(closeConnection_idempotent 3).2.1, (closeConnection_idempotent (-1)).2.2 rfl⟩

/-- C10: the by-name lookup indexes `m_values` at the position of the
first occurrence of the name in `m_keys`; for an absent name that
position is `m_keys.length` — with the length invariant, one past the end
of the values vector, an out-of-bounds access (modelled as `none`) — and
for a name present at index `i` it yields the value at index `i`. -/
theorem value_lookup_spec (r : InternalRow) (s : String) :
    (s ∉ r.m_keys →
      r.valueIdx s = r.m_keys.length ∧
      (r.m_values.length = r.m_keys.length → r.value s = none)) ∧
    (∀ i : Nat, s ∈ r.m_keys → r.m_keys.indexOf s = i →
      r.value s = r.m_values.get? i ∧ r.m_keys.get? i = some s) := by
  constructor
  · intro hnot
    have hidx : r.valueIdx s = r.m_keys.length := List.indexOf_eq_length.mpr hnot
    refine ⟨hidx, fun hlen => ?_⟩
    unfold InternalRow.value
    rw [hidx]
    exact List.get?_len_le (le_of_eq hlen)
  · intro i hmem hidx
    constructor
    · unfold InternalRow.value InternalRow.valueIdx
      rw [hidx]
    · rw [← hidx]
      exact List.indexOf_get? hmem

/-- Witness for C10 on a concrete row: an absent name indexes one past
the end, a present name returns its value. -/
theorem value_lookup_spec_witness :
    (InternalRow.mk ["a", "b"] ["int", "int"] ["1", "2"]).value "z" = none ∧
    (InternalRow.mk ["a", "b"] ["int", "int"] ["1", "2"]).value "b" = some "2" := by
  constructor
  · exact ((value_lookup_spec ⟨["a", "b"], ["int", "int"], ["1", "2"]⟩ "z").1
      (by decide)).2 (by decide)
  · exact ((value_lookup_spec ⟨["a", "b"], ["int", "int"], ["1", "2"]⟩ "b").2 1
      (by decide) (by decide)).1

/-- C4: processing a schema announcement replaces the registry with, per
element of the `"fields"` array in order, the name from `"name"` (empty
string if absent) and the type from `"real_type"` if present, else from
`"type"` when that value is a plain string, else `"char(50)"` when
`"type"` exists but is not a string, else `"undefined"`; stated for
announcements whose present `"name"` and `"real_type"` values are plain
JSON strings — the typing under which the claim's phrase "the value of"
denotes a string. -/
theorem processSchema_fields_spec (js : Jv) (fs : List Jv)
    (hf : objGet js "fields" = some (.arr fs))
    (hwt : fieldsWellTyped fs = true) :
    processSchema js = (fs.map specName, fs.map specType) ∧
    ∀ (st : ConnState) (line : String),
      applySchema st line js =
        { st with
          m_schema := line
          m_keys := fs.map specName
          m_types := fs.map specType } := by
  have h := fieldsWellTyped_spec fs hwt
  have hps : processSchema js = (fs.map specName, fs.map specType) := by
    have h1 : (fs.map schemaField).map Prod.fst = fs.map specName := by
      rw [List.map_map]
      exact List.map_congr_left fun v hv => by
        show (schemaField v).1 = specName v
        rw [h v hv]
    have h2 : (fs.map schemaField).map Prod.snd = fs.map specType := by
      rw [List.map_map]
      exact List.map_congr_left fun v hv => by
        show (schemaField v).2 = specType v
        rw [h v hv]
    simp [processSchema, hf, h1, h2]
  refine ⟨hps, fun st line => ?_⟩
  unfold applySchema
  rw [hps]

/-- Witness for C4 at the example's four-field schema announcement. -/
theorem processSchema_fields_spec_witness :
    processSchema schemaJv =
      (["domain", "server_id", "sequence", "col1"],
        ["int", "int", "int", "varchar(10)"]) := by
  have h := (processSchema_fields_spec schemaJv
    [ .obj [("name", .str "domain"), ("real_type", .str "int")],
      .obj [("name", .str "server_id"), ("real_type", .str "int")],
      .obj [("name", .str "sequence"), ("real_type", .str "int")],
      .obj [("name", .str "col1"), ("real_type", .str "varchar(10)")] ]
    rfl (by decide)).1
  rw [h]
  decide

/-- C6: `processRow` converts each field value by kind — string
passthrough, integer and real to their textual numeric form, booleans to
`"true"`/`"false"`, null and every other kind to the empty string (the
per-kind equations, and position-wise: a produced Row's `i`-th value is
the conversion of the object's value for the `i`-th registry name) — and
when some registry field name has no key in the object, row construction
yields no Row at all and the recorded error names that (first) missing
field. -/
theorem processRow_convert_and_missing :
    (∀ s, json_to_string (.str s) = s) ∧
    (∀ n : Int, json_to_string (.int n) = toString n) ∧
    (∀ t, json_to_string (.real t) = t) ∧
    json_to_string (.bool true) = "true" ∧
    json_to_string (.bool false) = "false" ∧
    json_to_string .null = "" ∧
    (∀ xs, json_to_string (.arr xs) = "") ∧
    (∀ fs, json_to_string (.obj fs) = "") ∧
    (∀ (keys types : List String) (js : Jv) (r : InternalRow) (e : String),
      processRow keys types js = (some r, e) →
      ∀ i k v, keys.get? i = some k → objGet js k = some v →
        r.m_values.get? i = some (json_to_string v)) ∧
    (∀ (keys types : List String) (js : Jv),
      (∃ k ∈ keys, objGet js k = none) →
      (processRow keys types js).1 = none ∧
      ∃ k, k ∈ keys ∧ objGet js k = none ∧
        (processRow keys types js).2 = "No value for key found: " ++ k) := by
  refine ⟨fun s => rfl, fun n => rfl, fun t => rfl, rfl, rfl, rfl,
    fun xs => rfl, fun fs => rfl, ?_, ?_⟩
  · intro keys types js r e h i k v hk hv
    unfold processRow at h
    cases hc : collectValues js keys with
    | error e' => rw [hc] at h; simp at h
    | ok vs =>
        rw [hc] at h
        simp [Prod.ext_iff] at h
        obtain ⟨hr, _⟩ := h
        subst hr
        rcases collectValues_ok_get js keys vs hc i k hk with ⟨v', hv', hget⟩
        rw [hv] at hv'
        cases hv'
        exact hget
  · intro keys types js hmiss
    rcases collectValues_error_of_missing js keys hmiss with ⟨k, hmem, hnone, heq⟩
    unfold processRow
    rw [heq]
    exact ⟨rfl, k, hmem, hnone, rfl⟩

/-- Witness for C6: on the example data object, the produced Row's last
value is the passthrough of the string `"hello"`; dropping the
`"domain"` key makes row construction fail naming `"domain"`. -/
theorem processRow_convert_and_missing_witness :
    (∀ r e, processRow ["domain", "server_id", "sequence", "col1"]
        ["int", "int", "int", "varchar(10)"] dataJv = (some r, e) →
      r.m_values.get? 3 = some "hello") ∧
    (processRow ["domain", "server_id", "sequence", "col1"]
        ["int", "int", "int", "varchar(10)"]
        (.obj [("server_id", .int 1), ("sequence", .int 5),
          ("col1", .str "hello")])).1 = none := by
  constructor
  · intro r e h
    exact processRow_convert_and_missing.2.2.2.2.2.2.2.2.1
      ["domain", "server_id", "sequence", "col1"]
      ["int", "int", "int", "varchar(10)"] dataJv r e h 3 "col1"
      (.str "hello") rfl rfl
  · exact (processRow_convert_and_missing.2.2.2.2.2.2.2.2.2
      ["domain", "server_id", "sequence", "col1"]
      ["int", "int", "int", "varchar(10)"]
      (.obj [("server_id", .int 1), ("sequence", .int 5),
        ("col1", .str "hello")])
      ⟨"domain", List.mem_cons_self _ _, rfl⟩).1

/-- The registry produced by `processSchema` has one type per name. -/
lemma processSchema_len (js : Jv) :
    (processSchema js).1.length = (processSchema js).2.length := by
  unfold processSchema
  cases h : objGet js "fields" with
  | none => rfl
  | some v => cases v <;> simp

/-- Every `read` call preserves the registry length invariant and returns
only Rows whose three vectors have equal length. -/
lemma readStep_preserves (parse : String → Except String Jv) :
    ∀ (fuel : Nat) (st : ConnState) (input : List Char),
      st.m_keys.length = st.m_types.length →
      ((readStep parse fuel st input).2.1.m_keys.length =
        (readStep parse fuel st input).2.1.m_types.length) ∧
      (∀ r, (readStep parse fuel st input).1 = some r →
        r.m_values.length = r.m_keys.length ∧
        r.m_keys.length = r.m_types.length) := by
  intro fuel
  induction fuel with
  | zero =>
      intro st input h
      exact ⟨h, fun r hr => by simp [readStep] at hr⟩
  | succ fuel ih =>
      intro st input h
      cases hr : readRow input "" with
      | fail e rest =>
          refine ⟨by simp [readStep, hr, h], fun r h' => ?_⟩
          simp [readStep, hr] at h'
      | ok line rest =>
          cases hp : parse line with
          | error e =>
              refine ⟨by simp [readStep, hr, hp, h], fun r h' => ?_⟩
              simp [readStep, hr, hp] at h'
          | ok js =>
              by_cases hs : is_schema js
              · have hinv : (applySchema st line js).m_keys.length =
                    (applySchema st line js).m_types.length := by
                  simp [applySchema, processSchema_len]
                have := ih (applySchema st line js) rest hinv
                simpa [readStep, hr, hp, hs] using this
              · refine ⟨by simp [readStep, hr, hp, hs, h], fun r h' => ?_⟩
                simp [readStep, hr, hp, hs] at h'
                have hpr : processRow st.m_keys st.m_types js =
                    (some r, (processRow st.m_keys st.m_types js).2) := by
                  rw [← h']
                obtain ⟨h1, h2, h3, _⟩ := processRow_some _ _ _ _ _ hpr
                constructor
                · rw [h1]; exact h3
                · rw [h1, h2]; exact h

/-- C8: the registry's name and type lists always have identical length —
`processSchema` rebuilds them in lockstep, and `read` preserves the
invariant across schema and row branches — and every Row ever constructed
satisfies `values.length = names.length = types.length`. -/
theorem registry_and_row_length_invariant :
    (∀ js, (processSchema js).1.length = (processSchema js).2.length) ∧
    (∀ (keys types : List String) (js : Jv) (r : InternalRow) (e : String),
      processRow keys types js = (some r, e) → keys.length = types.length →
      r.m_values.length = r.m_keys.length ∧
      r.m_keys.length = r.m_types.length) ∧
    (∀ (parse : String → Except String Jv) (fuel : Nat) (st : ConnState)
        (input : List Char),
      st.m_keys.length = st.m_types.length →
      ((readStep parse fuel st input).2.1.m_keys.length =
        (readStep parse fuel st input).2.1.m_types.length) ∧
      (∀ r, (readStep parse fuel st input).1 = some r →
        r.m_values.length = r.m_keys.length ∧
        r.m_keys.length = r.m_types.length)) := by
  refine ⟨processSchema_len, ?_, readStep_preserves⟩
  intro keys types js r e hpr hlen
  obtain ⟨h1, h2, h3, _⟩ := processRow_some _ _ _ _ _ hpr
  constructor
  · rw [h1]; exact h3
  · rw [h1, h2]; exact hlen

/-- Witness for C8 at a concrete row and at the example's `read` run. -/
theorem registry_and_row_length_invariant_witness :
    ((⟨["a"], ["int"], [""]⟩ : InternalRow).m_values.length =
      (⟨["a"], ["int"], [""]⟩ : InternalRow).m_keys.length) ∧
    ((readStep exParse 2 initState exInput).2.1.m_keys.length =
      (readStep exParse 2 initState exInput).2.1.m_types.length) :=
  ⟨(registry_and_row_length_invariant.2.1 ["a"] ["int"] (.obj [("a", .null)])
      ⟨["a"], ["int"], [""]⟩ "" rfl rfl).1,
    (registry_and_row_length_invariant.2.2 exParse 2 initState exInput rfl).1⟩

set_option maxRecDepth 100000 in
/-- C1: when a decoded line parses to a schema-shaped object, `read`
stores the raw line as the current schema text, replaces the registry via
`processSchema` and recursively reads again, so the schema line is never
returned to the caller as a Row; and on the spec's two-line example a
single `read` call yields the Row whose `value("col1")` is `"hello"` and
whose `gtid()` is `"0-1-5"`, with the schema text stored. -/
theorem read_schema_transparent_and_example :
    (∀ (parse : String → Except String Jv) (fuel : Nat) (st : ConnState)
        (input : List Char) (line : String) (rest : List Char) (js : Jv),
      readRow input "" = .ok line rest → parse line = .ok js →
      is_schema js = true →
      readStep parse (fuel + 1) st input =
        readStep parse fuel (applySchema st line js) rest) ∧
    ((readStep exParse 2 initState exInput).1.map
        (fun r => (r.value "col1", r.gtid)) =
      some (some "hello", some "0-1-5") ∧
      (readStep exParse 2 initState exInput).2.1.m_schema = schemaLine) := by
  constructor
  · intro parse fuel st input line rest js h1 h2 h3
    simp [readStep, h1, h2, h3]
  · constructor
    · decide
    · decide

set_option maxRecDepth 100000 in
/-- Witness for C1: the example's first `read` on the two-line stream
takes the schema branch and reduces to the recursive `read` on the
remaining bytes under the replaced registry. -/
theorem read_schema_transparent_witness :
    readStep exParse 2 initState exInput =
      readStep exParse 1 (applySchema initState schemaLine schemaJv)
        ((dataLine ++ "\n").data) :=
  read_schema_transparent_and_example.1 exParse 1 initState exInput schemaLine
    ((dataLine ++ "\n").data) schemaJv (by decide) rfl (by decide)

/-- A character's code point is below the Unicode bound. -/
lemma char_toNat_lt (c : Char) : c.toNat < 1114112 := by
  rcases c.valid with h | ⟨_, h⟩
  · exact Nat.lt_trans h (by norm_num)
  · exact h

/-- Every byte of a character's UTF-8 encoding is below 256. -/
lemma utf8Bytes_lt (c : Char) : ∀ b ∈ utf8Bytes c, b < 256 := by
  intro b hb
  have hc : c.toNat < 1114112 := char_toNat_lt c
  unfold utf8Bytes at hb
  split_ifs at hb <;> simp at hb <;> omega

/-- Every byte of a string's raw bytes is below 256. -/
lemma strBytes_lt (s : String) : ∀ b ∈ strBytes s, b < 256 := by
  intro b hb
  unfold strBytes at hb
  rcases List.mem_flatten.mp hb with ⟨l, hl, hbl⟩
  rcases List.mem_map.mp hl with ⟨c, _, rfl⟩
  exact utf8Bytes_lt c b hbl

/-- `bytesBE` yields the requested number of bytes. -/
lemma bytesBE_length (k n : Nat) : (bytesBE k n).length = k := by
  simp [bytesBE]

/-- `bytesBE` yields bytes below 256. -/
lemma bytesBE_lt (k n : Nat) : ∀ b ∈ bytesBE k n, b < 256 := by
  intro b hb
  simp [bytesBE] at hb
  rcases hb with ⟨i, _, rfl⟩
  exact Nat.mod_lt _ (by norm_num)

/-- The SHA-1 digest has exactly 20 bytes. -/
lemma SHA1_length (msg : List Nat) : (SHA1 msg).length = 20 := by
  simp [SHA1, bytesBE_length]

/-- Every byte of the SHA-1 digest is below 256. -/
lemma SHA1_lt (msg : List Nat) : ∀ b ∈ SHA1 msg, b < 256 := by
  intro b hb
  simp only [SHA1, List.mem_append] at hb
  rcases hb with h | h | h | h | h <;> exact bytesBE_lt _ _ b h

/-- Indexing the hex table below its length lands in the table. -/
lemma hexconvtab_getD_mem (i : Nat) (hi : i < 16) (d : Char) :
    hexconvtab.getD i d ∈ hexconvtab := by
  have hlen : i < hexconvtab.length := by
    rw [show hexconvtab.length = 16 from rfl]
    exact hi
  rw [List.getD_eq_getElem?_getD, List.getElem?_eq_getElem hlen]
  simp only [Option.getD_some]
  exact List.getElem_mem hlen

/-- On bytes, `bin2hex` emits only characters of the lower-case hex
table. -/
lemma bin2hex_chars (data : List Nat) (hd : ∀ b ∈ data, b < 256) :
    ∀ c ∈ (bin2hex data).data, c ∈ hexconvtab := by
  intro c hc
  have hc' : c ∈ (data.map (fun b =>
      [hexconvtab.getD (b / 16) (Char.ofNat 0),
        hexconvtab.getD (b % 16) (Char.ofNat 0)])).flatten := hc
  rcases List.mem_flatten.mp hc' with ⟨l, hl, hcl⟩
  rcases List.mem_map.mp hl with ⟨b, hb, rfl⟩
  have h256 := hd b hb
  simp only [List.mem_cons, List.not_mem_nil, or_false] at hcl
  rcases hcl with rfl | rfl
  · exact hexconvtab_getD_mem (b / 16) (by omega) _
  · exact hexconvtab_getD_mem (b % 16) (Nat.mod_lt _ (by norm_num)) _

set_option maxRecDepth 100000 in
/-- C3: the authentication token is a pure function of the credential
pair — `generateAuthString` equals the lower-case hex encoding of the
bytes of `user + ":"` followed by the lower-case hex encoding of the
20-byte SHA-1 digest of the raw password bytes; every character of the
token is a lower-case hex digit, so in particular the token carries no
line terminator (`doAuth` writes exactly `auth_str.length()` bytes of
it); and on the credential pair (`"maxscale"`, `"maxscale"`) it
reproduces the fixed recomputable hex string. -/
theorem generateAuthString_spec :
    (∀ user password : String,
      generateAuthString user password =
        bin2hex (strBytes (user ++ ":")) ++ bin2hex (SHA1 (strBytes password)) ∧
      (SHA1 (strBytes password)).length = 20 ∧
      (∀ c ∈ (generateAuthString user password).data, c ∈ hexconvtab) ∧
      '\n' ∉ (generateAuthString user password).data) ∧
    generateAuthString "maxscale" "maxscale" =
      "6d61787363616c653a9f2a83c4ebdbf57b0e5fd748f2b60bc604212137" := by
  constructor
  · intro user password
    have hchars : ∀ c ∈ (generateAuthString user password).data, c ∈ hexconvtab := by
      intro c hc
      rw [show generateAuthString user password =
          bin2hex (strBytes (user ++ ":")) ++ bin2hex (SHA1 (strBytes password))
        from rfl, String.data_append] at hc
      rcases List.mem_append.mp hc with h | h
      · exact bin2hex_chars _ (strBytes_lt _) c h
      · exact bin2hex_chars _ (SHA1_lt _) c h
    refine ⟨rfl, SHA1_length _, hchars, fun hmem => ?_⟩
    have := hchars _ hmem
    simp [hexconvtab] at this
  · decide

set_option maxRecDepth 100000 in
/-- Witness for C3: the digest of `"maxscale"` has 20 bytes and the first
character of the concrete token is a lower-case hex digit. -/
theorem generateAuthString_spec_witness :
    (SHA1 (strBytes "maxscale")).length = 20 ∧ '6' ∈ hexconvtab :=
  ⟨((generateAuthString_spec.1 "maxscale" "maxscale").2.1),
    ((generateAuthString_spec.1 "maxscale" "maxscale").2.2.1) '6' (by decide)⟩

end CDC
